import Mathlib

/-!
Verification of the telegram audio-meme bot (src/main.py) against its
specification. The command router (the handlers and the dispatcher wiring in
main.py) is embedded from the source; the storage layer (SqliteMemeStorage in
the model package), the quoted-voice injection helper and the message filters
are not part of the provided sources, so they are modelled from the
specification, as marked on each definition.
-/

namespace MemeBot

/-- The Meme record (model package, fields per spec section 3): id is assigned
by storage (None before insertion), name is free text, file_id is the opaque
platform identifier, owner_id the adding user, times_used a counter
initialized to 0. -/
structure Meme where
  id : Option Nat
  name : String
  file_id : String
  owner_id : Nat
  times_used : Nat
deriving DecidableEq, Repr

/-- Modelled from the spec: the storage error taxonomy relevant to the store —
NotFound (lookup misses, a KeyError in the code) and Unauthorized
(model.exceptions.Unauthorized). -/
inductive StorageError where
  | NotFound
  | Unauthorized
deriving DecidableEq, Repr

/-- Modelled from the spec: SqliteMemeStorage (model package, not in the
provided sources) — one table of Meme records plus the storage-assigned id
counter (integer primary key; ids are never reused, so the counter only
grows). -/
structure SqliteMemeStorage where
  memes : List Meme
  next_id : Nat
deriving DecidableEq, Repr

/-- Modelled from the spec: exact lookup by file_id; returns none (KeyError in
the code) when no record matches. -/
def get_by_file_id (s : SqliteMemeStorage) (fid : String) : Option Meme :=
  s.memes.find? (fun m => m.file_id == fid)

/-- Modelled from the spec: add inserts a new record; id must be unset (none),
storage assigns one; returns the stored record with id populated together with
the new store. Duplicate file_id inserts are not prevented (spec section 9). -/
def add (s : SqliteMemeStorage) (m : Meme) : Option (Meme × SqliteMemeStorage) :=
  match m.id with
  | some _ => none
  | none =>
    let stored : Meme := { m with id := some s.next_id }
    some (stored, { memes := s.memes ++ [stored], next_id := s.next_id + 1 })

/-- Modelled from the spec: delete_by_file_id fails with NotFound if absent,
fails with Unauthorized if the requester is not the owner, otherwise removes
the record (identified by its storage id). -/
def delete_by_file_id (s : SqliteMemeStorage) (fid : String) (requester : Nat) :
    Except StorageError SqliteMemeStorage :=
  match s.memes.find? (fun m => m.file_id == fid) with
  | none => .error .NotFound
  | some m =>
    if m.owner_id == requester then
      .ok { memes := s.memes.filter (fun x => x.id != m.id), next_id := s.next_id }
    else
      .error .Unauthorized

/-- Modelled from the spec: rename fails with Unauthorized if the requester is
not the owner, otherwise updates name in place, id and file_id unchanged.
A missing id yields NotFound. -/
def rename (s : SqliteMemeStorage) (i : Option Nat) (new_name : String)
    (requester : Nat) : Except StorageError SqliteMemeStorage :=
  match s.memes.find? (fun m => m.id == i) with
  | none => .error .NotFound
  | some m =>
    if m.owner_id == requester then
      .ok { memes := s.memes.map
              (fun x => if x.id == i then { x with name := new_name } else x),
            next_id := s.next_id }
    else
      .error .Unauthorized

/-- Character-list version of "starts with". -/
def charsStartWith : List Char → List Char → Bool
  | _, [] => true
  | [], _ :: _ => false
  | c :: cs, p :: ps => c == p && charsStartWith cs ps

/-- Character-list version of "contains as a contiguous substring". -/
def charsContain : List Char → List Char → Bool
  | [], p => charsStartWith [] p
  | c :: cs, p => charsStartWith (c :: cs) p || charsContain cs p

/-- Substring test on strings, used to model the find query match. -/
def containsSub (hay pat : String) : Bool :=
  charsContain hay.toList pat.toList

/-- Modelled from the spec: find does a substring match against name; the
sequence is finite and safe to consume partially; no ordering is pinned, the
list keeps storage order. -/
def find (s : SqliteMemeStorage) (query : String) : List Meme :=
  s.memes.filter (fun m => containsSub m.name query)

/-- Modelled from the spec: get_all returns all records. -/
def get_all (s : SqliteMemeStorage) : List Meme :=
  s.memes

/-!
Command handlers, embedded from src/main.py. Each quoted-voice command is
modelled after the inject_quoted_voice_id decorator has run, i.e. the handler
receives the quoted voice file_id directly, matching the python signature
cmd_xxx(bot, update, quoted_voice_id). Replies are collected as a list of the
exact strings sent; a handler aborted by an uncaught exception contributes no
further replies and leaves the store as it was at the raise point.
-/

/-- cmd_name (src/main.py): looks up the quoted voice and replies with the
meme's name, or a not-found message. -/
def cmd_name (s : SqliteMemeStorage) (quoted_voice_id : String) : List String :=
  match get_by_file_id s quoted_voice_id with
  | none => ["I don't know that meme, sorry."]
  | some meme => [meme.name]

/-- cmd_delete (src/main.py): looks up the quoted voice (not-found message on
a miss), then deletes with an ownership check (authorization message on
Unauthorized), else confirms. Returns the resulting store and the replies. -/
def cmd_delete (s : SqliteMemeStorage) (quoted_voice_id : String)
    (requester : Nat) : SqliteMemeStorage × List String :=
  match get_by_file_id s quoted_voice_id with
  | none => (s, ["I don't know that meme, sorry."])
  | some meme =>
    match delete_by_file_id s quoted_voice_id requester with
    | .error .Unauthorized =>
      (s, ["Sorry, you can only delete the memes you added yourself."])
    | .error .NotFound => (s, [])
    | .ok s' =>
      (s', ["The meme \"" ++ meme.name ++ "\" has been deleted."])

/-- cmd_rename (src/main.py): joined args form the new name; empty name gives
a usage hint; then lookup (not-found message on a miss) and rename with an
ownership check (authorization message on Unauthorized), else confirms. -/
def cmd_rename (s : SqliteMemeStorage) (args : List String)
    (quoted_voice_id : String) (requester : Nat) :
    SqliteMemeStorage × List String :=
  let new_name := String.intercalate " " args
  if new_name == "" then
    (s, ["Usage: /rename <i>new name</i>"])
  else
    match get_by_file_id s quoted_voice_id with
    | none => (s, ["Sorry, I don't know that meme."])
    | some meme =>
      match rename s meme.id new_name requester with
      | .error .Unauthorized =>
        (s, ["Sorry, you can only rename the memes you added yourself."])
      | .error .NotFound => (s, [])
      | .ok s' =>
        (s', ["The meme has been renamed to \"" ++ new_name ++ "\""])

/-- cmd_fix (src/main.py): lookup, ownership-checked delete of the old record,
then re-download, re-convert and re-upload to obtain a fresh file_id, and
re-add a record with the old name and owner under it. The download, conversion
and upload collaborators are abstracted by the env argument: some fid means
they all succeeded and the platform issued fid for the re-uploaded voice; none
means one of them raised, the exception propagating out of the handler after
the delete already happened. -/
def cmd_fix (s : SqliteMemeStorage) (quoted_voice_id : String)
    (requester : Nat) (env : Option String) : SqliteMemeStorage × List String :=
  match get_by_file_id s quoted_voice_id with
  | none => (s, ["Sorry, I don't know that meme."])
  | some meme =>
    match delete_by_file_id s meme.file_id requester with
    | .error .Unauthorized =>
      (s, ["Sorry, you can only fix the memes you added yourself."])
    | .error .NotFound => (s, [])
    | .ok s' =>
      match env with
      | none => (s', [])
      | some fixed_file_id =>
        match add s' { id := none, name := meme.name, file_id := fixed_file_id,
                       owner_id := meme.owner_id, times_used := 0 } with
        | none => (s', [])
        | some (_, s'') => (s'', ["The meme has been fixed"])

/-- inlinequery (src/main.py): non-empty query searches with find, empty query
lists all; at most 10 results (islice), answered as (file_id, title) pairs
with cache_time 0. The random uuid result ids are omitted. -/
def inlinequery (s : SqliteMemeStorage) (query : String) :
    List (String × String) × Nat :=
  let memes := if query == "" then get_all s else find s query
  let memes := memes.take 10
  (memes.map (fun m => (m.file_id, m.name)), 0)

/-!
Dispatcher, embedded from main() in src/main.py. Handlers are registered in
one group, first match wins: the ConversationHandler (entry point: an
audio-like message that is not a known meme; NAME state: plain text handled by
name_handler; fallback: the /cancel command), then MessageHandler(is_meme,
meme_handler), then the /name, /delete, /rename and /fix command handlers.
When the conversation is active but none of its state handlers or fallbacks
match, the update falls through to the later handlers with the conversation
state unchanged.
-/

/-- An inbound chat message: a voice note (carrying its platform file_id), an
audio file or audio document (carrying the file_id to download and convert),
or a text message (commands are texts starting with a slash) possibly quoting
a voice message. -/
inductive Msg where
  | voice (file_id : String)
  | audio (file_id : String)
  | text (content : String) (quotedVoice : Option String)
deriving DecidableEq, Repr

/-- Modelled from the spec: the IsMeme filter (custom_filters, not in the
provided sources) — an unsolicited voice message whose file_id matches a known
meme. -/
def is_meme (s : SqliteMemeStorage) : Msg → Bool
  | .voice fid => (get_by_file_id s fid).isSome
  | _ => false

/-- The audio-like test of the conversation entry point:
Filters.audio, Filters.voice or the IsAudioDocument filter. -/
def isAudioLike : Msg → Bool
  | .voice _ => true
  | .audio _ => true
  | .text _ _ => false

/-- String "starts with", on the character list (kernel-computable). -/
def strStartsWith (s pre : String) : Bool :=
  charsStartWith s.toList pre.toList

/-- Splitting a character list on spaces, like python str.split: the pieces
between spaces (empty pieces appear for repeated spaces and are filtered by
the consumers that need python semantics). -/
def splitOnSpace : List Char → List (List Char)
  | [] => [[]]
  | c :: cs =>
    if c == ' ' then [] :: splitOnSpace cs
    else
      match splitOnSpace cs with
      | [] => [[c]]
      | t :: ts => (c :: t) :: ts

/-- Whitespace as python str.strip sees it (the characters the bot can
receive in practice). -/
def isWs (c : Char) : Bool :=
  c == ' ' || c == '\t' || c == '\n' || c == '\r'

/-- Drop leading whitespace from a character list. -/
def dropLeadingWs : List Char → List Char
  | [] => []
  | c :: cs => if isWs c then dropLeadingWs cs else c :: cs

/-- python str.strip: whitespace removed from both ends. -/
def strTrim (s : String) : String :=
  String.mk ((dropLeadingWs ((dropLeadingWs s.toList).reverse)).reverse)

/-- Filters.text of the SDK version in use: a text message that does not start
with a slash. -/
def isPlainText : Msg → Bool
  | .text content _ => !(strStartsWith content "/")
  | _ => false

/-- The command token of a text message: its first whitespace-separated word. -/
def firstToken (content : String) : String :=
  String.mk ((splitOnSpace content.toList).headD [])

/-- The args a CommandHandler with pass_args passes: the remaining
whitespace-separated words after the command token. -/
def commandArgs (content : String) : List String :=
  (((splitOnSpace content.toList).drop 1).filter
    (fun a => !(a.isEmpty))).map String.mk

/-- The dispatcher state: the storage, the set of users whose add-meme
conversation is in the NAME state (true = AWAITING_NAME, false = IDLE), and
each user's user_data entry for the pending meme_file_id key (none = key
absent). -/
structure BotState where
  store : SqliteMemeStorage
  conv : Nat → Bool
  userData : Nat → Option String

/-- The state a fresh process starts in: no active conversation and empty
user_data for every user, over whatever the persistent store holds. -/
def initState (s : SqliteMemeStorage) : BotState :=
  { store := s, conv := fun _ => false, userData := fun _ => none }

/-- The handlers registered after the ConversationHandler: meme_handler (on
the is_meme filter), then the /name, /delete, /rename and /fix command
handlers. Commands reach their handler through inject_quoted_voice_id, which
is modelled from the spec (utils, not in the provided sources): a command that
does not quote a voice message is a precondition failure reported to the user.
These handlers never touch the conversation state or user_data, so they act on
the store alone. -/
def handleOther (env : Option String) (s : SqliteMemeStorage) (sender : Nat)
    (msg : Msg) : SqliteMemeStorage × List String :=
  if is_meme s msg then
    match msg with
    | .voice fid =>
      match get_by_file_id s fid with
      | some meme => (s, ["Name: \"" ++ meme.name ++ "\""])
      | none => (s, [])
    | _ => (s, [])
  else
    match msg with
    | .text content quoted =>
      let tok := firstToken content
      if tok == "/name" then
        match quoted with
        | none => (s, ["Please reply to a voice message."])
        | some q => (s, cmd_name s q)
      else if tok == "/delete" then
        match quoted with
        | none => (s, ["Please reply to a voice message."])
        | some q => cmd_delete s q sender
      else if tok == "/rename" then
        match quoted with
        | none => (s, ["Please reply to a voice message."])
        | some q => cmd_rename s (commandArgs content) q sender
      else if tok == "/fix" then
        match quoted with
        | none => (s, ["Please reply to a voice message."])
        | some q => cmd_fix s q sender env
      else (s, [])
    | _ => (s, [])

/-- audio_handler (src/main.py), the conversation entry point: a native voice
message directly yields its file_id; an audio file or document is announced
("Converting to voice..."), downloaded, converted and sent back as a voice
reply whose response carries the fresh file_id (env abstracts these
collaborators; none means download or conversion raised, aborting the handler
after the announcement, before user_data is written and before the NAME state
is entered). On success the file_id is stored in user_data under meme_file_id
and the conversation enters the NAME state. -/
def audio_handler (env : Option String) (st : BotState) (sender : Nat) :
    Msg → BotState × List String
  | .voice fid =>
    ({ st with
        userData := fun u => if u == sender then some fid else st.userData u
        conv := fun u => if u == sender then true else st.conv u },
     ["Okay, now send me the name for the meme."])
  | .audio _ =>
    match env with
    | none => (st, ["Converting to voice..."])
    | some fid =>
      ({ st with
          userData := fun u => if u == sender then some fid else st.userData u
          conv := fun u => if u == sender then true else st.conv u },
       ["Converting to voice...", "Okay, now send me the name for the meme."])
  | .text _ _ => (st, [])

/-- name_handler (src/main.py): the trimmed text becomes the meme name, the
pending file_id is read from user_data (a missing meme_file_id key raises a
KeyError that reaches the error boundary with nothing changed), a Meme with
id None, the sender as owner and times_used 0 is added, the router confirms
and the conversation ends. -/
def name_handler (st : BotState) (sender : Nat) (content : String) :
    BotState × List String :=
  match st.userData sender with
  | none => (st, [])
  | some fid =>
    match add st.store { id := none, name := strTrim content, file_id := fid,
                         owner_id := sender, times_used := 0 } with
    | none => (st, [])
    | some (_, s') =>
      ({ st with
          store := s'
          conv := fun u => if u == sender then false else st.conv u },
       ["Meme has been added."])

/-- One dispatcher step on an inbound message from sender. With the
conversation in the NAME state: plain text goes to name_handler, the /cancel
fallback ends the conversation (user_data untouched), and anything else falls
through. Idle: an audio-like message that is not a known meme enters via
audio_handler; anything else falls through to handleOther. -/
def dispatch (env : Option String) (st : BotState) (sender : Nat) (msg : Msg) :
    BotState × List String :=
  if st.conv sender then
    match msg with
    | .text content _ =>
      if !(strStartsWith content "/") then
        name_handler st sender content
      else if firstToken content == "/cancel" then
        ({ st with
            conv := fun u => if u == sender then false else st.conv u },
         ["Current operation has been canceled."])
      else
        let r := handleOther env st.store sender msg
        ({ st with store := r.1 }, r.2)
    | _ =>
      let r := handleOther env st.store sender msg
      ({ st with store := r.1 }, r.2)
  else
    if isAudioLike msg && !(is_meme st.store msg) then
      audio_handler env st sender msg
    else
      let r := handleOther env st.store sender msg
      ({ st with store := r.1 }, r.2)

/-- The bot states reachable from a fresh process start by any sequence of
inbound messages. -/
inductive Reachable : BotState → Prop where
  | init : ∀ s, Reachable (initState s)
  | next : ∀ env sender msg {st}, Reachable st →
      Reachable (dispatch env st sender msg).1

/-! Helper lemmas about list search. -/

theorem find_append_of_none {α} (p : α → Bool) (l₁ l₂ : List α)
    (h : l₁.find? p = none) : (l₁ ++ l₂).find? p = l₂.find? p := by
  induction l₁ with
  | nil => rfl
  | cons a t ih =>
    simp only [List.cons_append, List.find?_cons] at h ⊢
    cases hpa : p a with
    | true => rw [hpa] at h; simp at h
    | false => rw [hpa] at h; exact ih h

theorem find_filter_of_none {α} (p q : α → Bool) (l : List α)
    (h : l.find? p = none) : (l.filter q).find? p = none := by
  rw [List.find?_eq_none] at h ⊢
  intro x hx
  exact h x (List.mem_of_mem_filter hx)

/-! Claim theorems. -/

/-- C1: for every meme stored with owner U, a /delete command issued by any
requester whose id is not U fails with Unauthorized: the handler sends exactly
the specific authorization message, the store it returns is the one it was
given, and the record is still present in it. -/
theorem delete_by_nonowner_rejected (s : SqliteMemeStorage) (fid : String)
    (r : Nat) (m : Meme)
    (hget : get_by_file_id s fid = some m)
    (hr : r ≠ m.owner_id) :
    cmd_delete s fid r
      = (s, ["Sorry, you can only delete the memes you added yourself."])
    ∧ m ∈ (cmd_delete s fid r).1.memes := by
  have hmem : m ∈ s.memes := List.mem_of_find?_eq_some hget
  have howner : (m.owner_id == r) = false := by
    simp only [beq_eq_false_iff_ne, ne_eq]
    exact fun h => hr h.symm
  have hdel : delete_by_file_id s fid r = .error .Unauthorized := by
    unfold delete_by_file_id
    unfold get_by_file_id at hget
    rw [hget]
    simp [howner]
  have hcmd : cmd_delete s fid r
      = (s, ["Sorry, you can only delete the memes you added yourself."]) := by
    unfold cmd_delete
    rw [hget, hdel]
  exact ⟨hcmd, by rw [hcmd]; exact hmem⟩

/-- C1 witness: user 2 cannot delete the meme "oof" that user 1 added. -/
theorem delete_by_nonowner_rejected_witness :
    cmd_delete { memes := [{ id := some 0, name := "oof", file_id := "AAA",
                             owner_id := 1, times_used := 0 }], next_id := 1 }
        "AAA" 2
      = ({ memes := [{ id := some 0, name := "oof", file_id := "AAA",
                       owner_id := 1, times_used := 0 }], next_id := 1 },
         ["Sorry, you can only delete the memes you added yourself."])
    ∧ ({ id := some 0, name := "oof", file_id := "AAA",
         owner_id := 1, times_used := 0 } : Meme)
      ∈ (cmd_delete { memes := [{ id := some 0, name := "oof", file_id := "AAA",
                                  owner_id := 1, times_used := 0 }], next_id := 1 }
          "AAA" 2).1.memes :=
  delete_by_nonowner_rejected _ _ _ _ (by decide) (by decide)

/-- C4: for a stored meme (found both by its file_id and by its id), /rename
by a non-owner returns the untouched store with the specific authorization
message, while the same /rename by the owner rewrites exactly the records
whose id matches, and the rewriting function changes only the name field:
id, file_id, owner_id and times_used are preserved, and every other record is
left entirely unchanged. -/
theorem rename_only_changes_name (s : SqliteMemeStorage) (args : List String)
    (fid : String) (m : Meme) (r : Nat)
    (hget : get_by_file_id s fid = some m)
    (hfind : s.memes.find? (fun x => x.id == m.id) = some m)
    (hargs : String.intercalate " " args ≠ "")
    (hr : r ≠ m.owner_id) :
    cmd_rename s args fid r
      = (s, ["Sorry, you can only rename the memes you added yourself."])
    ∧ cmd_rename s args fid m.owner_id
      = ({ memes := s.memes.map
             (fun x => if x.id == m.id then
                { x with name := String.intercalate " " args } else x),
           next_id := s.next_id },
         ["The meme has been renamed to \""
            ++ String.intercalate " " args ++ "\""])
    ∧ (∀ x : Meme,
        (if x.id == m.id then
           { x with name := String.intercalate " " args } else x).id = x.id
        ∧ (if x.id == m.id then
             { x with name := String.intercalate " " args } else x).file_id
            = x.file_id
        ∧ (if x.id == m.id then
             { x with name := String.intercalate " " args } else x).owner_id
            = x.owner_id
        ∧ (if x.id == m.id then
             { x with name := String.intercalate " " args } else x).times_used
            = x.times_used
        ∧ (x.id ≠ m.id →
            (if x.id == m.id then
               { x with name := String.intercalate " " args } else x) = x)) := by
  have hne : (String.intercalate " " args == "") = false := by
    simp only [beq_eq_false_iff_ne, ne_eq]
    exact hargs
  have hrbad : (m.owner_id == r) = false := by
    simp only [beq_eq_false_iff_ne, ne_eq]
    exact fun h => hr h.symm
  refine ⟨?_, ?_, ?_⟩
  · have hren : rename s m.id (String.intercalate " " args) r
        = .error .Unauthorized := by
      unfold rename
      rw [hfind]
      simp [hrbad]
    unfold cmd_rename
    simp [hne, hget, hren]
  · have hren : rename s m.id (String.intercalate " " args) m.owner_id
        = .ok { memes := s.memes.map
                  (fun x => if x.id == m.id then
                     { x with name := String.intercalate " " args } else x),
                next_id := s.next_id } := by
      unfold rename
      rw [hfind]
      simp
    unfold cmd_rename
    simp [hne, hget, hren]
  · intro x
    by_cases hx : x.id = m.id
    · simp [hx]
    · simp [hx]

/-- C4 witness: user 2 cannot rename user 1's meme, and user 1's rename of it
rewrites only the name. -/
theorem rename_only_changes_name_witness :
    cmd_rename { memes := [{ id := some 0, name := "oof", file_id := "AAA",
                             owner_id := 1, times_used := 0 }], next_id := 1 }
        ["new", "name"] "AAA" 2
      = ({ memes := [{ id := some 0, name := "oof", file_id := "AAA",
                       owner_id := 1, times_used := 0 }], next_id := 1 },
         ["Sorry, you can only rename the memes you added yourself."])
    ∧ cmd_rename { memes := [{ id := some 0, name := "oof", file_id := "AAA",
                               owner_id := 1, times_used := 0 }], next_id := 1 }
        ["new", "name"] "AAA" 1
      = ({ memes := [{ id := some 0, name := "oof", file_id := "AAA",
                       owner_id := 1, times_used := 0 }].map
             (fun x => if x.id == some 0 then
                { x with name := String.intercalate " " ["new", "name"] }
              else x),
           next_id := 1 },
         ["The meme has been renamed to \""
            ++ String.intercalate " " ["new", "name"] ++ "\""])
    ∧ (∀ x : Meme,
        (if x.id == some 0 then
           { x with name := String.intercalate " " ["new", "name"] } else x).id
            = x.id
        ∧ (if x.id == some 0 then
             { x with name := String.intercalate " " ["new", "name"] }
           else x).file_id = x.file_id
        ∧ (if x.id == some 0 then
             { x with name := String.intercalate " " ["new", "name"] }
           else x).owner_id = x.owner_id
        ∧ (if x.id == some 0 then
             { x with name := String.intercalate " " ["new", "name"] }
           else x).times_used = x.times_used
        ∧ (x.id ≠ some 0 →
            (if x.id == some 0 then
               { x with name := String.intercalate " " ["new", "name"] }
             else x) = x)) :=
  rename_only_changes_name _ _ _
    { id := some 0, name := "oof", file_id := "AAA",
      owner_id := 1, times_used := 0 } _
    (by decide) (by decide) (by decide) (by decide)

/-- A well-formed store: every id that storage has handed out to a stored
record is below the id counter. This is maintained by construction since only
the store assigns ids. -/
def wf (s : SqliteMemeStorage) : Prop :=
  ∀ m ∈ s.memes, ∀ j, m.id = some j → j < s.next_id

/-- C8: adding a meme with an unset id to a well-formed store whose file_id is
not yet present succeeds, and get_by_file_id on that file_id immediately
afterwards returns a record with identical name, file_id, owner_id and
times_used, whose assigned id differs from the id of every stored record and
from every id the counter has already issued. -/
theorem add_then_get_fresh (s : SqliteMemeStorage) (m : Meme)
    (hid : m.id = none)
    (hfresh : get_by_file_id s m.file_id = none)
    (hwf : wf s) :
    ∃ stored s', add s m = some (stored, s')
      ∧ get_by_file_id s' m.file_id = some stored
      ∧ stored.name = m.name
      ∧ stored.file_id = m.file_id
      ∧ stored.owner_id = m.owner_id
      ∧ stored.times_used = m.times_used
      ∧ (∀ j, j < s.next_id → stored.id ≠ some j)
      ∧ (∀ m' ∈ s.memes, stored.id ≠ m'.id) := by
  have hadd : add s m
      = some ({ m with id := some s.next_id },
              { memes := s.memes ++ [{ m with id := some s.next_id }],
                next_id := s.next_id + 1 }) := by
    unfold add
    rw [hid]
  refine ⟨_, _, hadd, ?_, rfl, rfl, rfl, rfl, ?_, ?_⟩
  · unfold get_by_file_id at hfresh ⊢
    rw [find_append_of_none _ _ _ hfresh]
    simp [List.find?]
  · intro j hj hcontra
    have : s.next_id = j := by
      simpa using hcontra
    omega
  · intro m' hm' hcontra
    cases hmid : m'.id with
    | none => rw [hmid] at hcontra; simp at hcontra
    | some j =>
      rw [hmid] at hcontra
      have hj : j < s.next_id := hwf m' hm' j hmid
      have : s.next_id = j := by simpa using hcontra
      omega

/-- C8 witness: adding a new meme to a one-record well-formed store. -/
theorem add_then_get_fresh_witness :
    ∃ stored s',
      add { memes := [{ id := some 0, name := "oof", file_id := "AAA",
                        owner_id := 1, times_used := 0 }], next_id := 1 }
          { id := none, name := "party horn", file_id := "BBB",
            owner_id := 2, times_used := 0 }
        = some (stored, s')
      ∧ get_by_file_id s' "BBB" = some stored
      ∧ stored.name = "party horn"
      ∧ stored.file_id = "BBB"
      ∧ stored.owner_id = 2
      ∧ stored.times_used = 0
      ∧ (∀ j, j < 1 → stored.id ≠ some j)
      ∧ (∀ m' ∈ ([{ id := some 0, name := "oof", file_id := "AAA",
                    owner_id := 1, times_used := 0 }] : List Meme),
          stored.id ≠ m'.id) :=
  add_then_get_fresh
    { memes := [{ id := some 0, name := "oof", file_id := "AAA",
                  owner_id := 1, times_used := 0 }], next_id := 1 }
    { id := none, name := "party horn", file_id := "BBB",
      owner_id := 2, times_used := 0 }
    (by decide) (by decide)
    (by
      intro m' hm' j hj
      have hm : m' = { id := some 0, name := "oof", file_id := "AAA",
                       owner_id := 1, times_used := 0 } := by
        simpa using hm'
      rw [hm] at hj
      injection hj with h
      show j < 1
      omega)

/-- C5: every inline query answer carries at most 10 results; they are exactly
the (file_id, title) pairs of the first 10 results of find(query) for a
non-empty query and of get_all() for the empty query; the answer is sent with
cache_time 0; and taking the first 10 is total — the result count is the
minimum of 10 and the number of available records, so fewer than 10 records
simply yields all of them. -/
theorem inlinequery_at_most_ten (s : SqliteMemeStorage) (q : String) :
    (inlinequery s q).1.length ≤ 10
    ∧ (inlinequery s q).2 = 0
    ∧ (inlinequery s q).1
        = ((if q == "" then get_all s else find s q).take 10).map
            (fun m => (m.file_id, m.name))
    ∧ (inlinequery s q).1.length
        = min 10 (if q == "" then get_all s else find s q).length := by
  unfold inlinequery
  refine ⟨?_, rfl, rfl, ?_⟩
  · simp [List.length_take]
  · simp [List.length_take]

/-- The record a successful ownership-checked delete removes is exactly the
one whose id matches, and when the deleted meme was the only record carrying
its file_id, that file_id no longer resolves afterwards. -/
theorem delete_removes_file_id (s : SqliteMemeStorage) (m : Meme)
    (hget : get_by_file_id s m.file_id = some m)
    (huniq : ∀ m' ∈ s.memes, m'.file_id = m.file_id → m' = m) :
    delete_by_file_id s m.file_id m.owner_id
      = .ok { memes := s.memes.filter (fun x => x.id != m.id),
              next_id := s.next_id }
    ∧ (s.memes.filter (fun x => x.id != m.id)).find?
        (fun x => x.file_id == m.file_id) = none := by
  constructor
  · unfold delete_by_file_id
    unfold get_by_file_id at hget
    rw [hget]
    simp
  · rw [List.find?_eq_none]
    intro x hx
    rcases List.mem_filter.mp hx with ⟨hxmem, hxid⟩
    intro hfid
    have hxm : x = m := huniq x hxmem (by simpa using hfid)
    rw [hxm] at hxid
    simp at hxid

/-- C3: after a successful /fix by the owner of a meme (whose file_id is
unambiguous in the store), with the platform issuing a fresh file_id for the
re-uploaded clip, the handler confirms, the old file_id no longer resolves via
get_by_file_id, and the store contains a record with the same name and
owner_id under the new, different file_id. -/
theorem fix_replaces_record (s : SqliteMemeStorage) (fid newFid : String)
    (m : Meme)
    (hget : get_by_file_id s fid = some m)
    (huniq : ∀ m' ∈ s.memes, m'.file_id = m.file_id → m' = m)
    (hnewOld : newFid ≠ m.file_id)
    (hnewFresh : get_by_file_id s newFid = none) :
    ∃ s', cmd_fix s fid m.owner_id (some newFid)
        = (s', ["The meme has been fixed"])
      ∧ get_by_file_id s' m.file_id = none
      ∧ ∃ m', get_by_file_id s' newFid = some m'
          ∧ m'.name = m.name
          ∧ m'.owner_id = m.owner_id
          ∧ m'.file_id = newFid
          ∧ m'.file_id ≠ m.file_id := by
  have hmfid : m.file_id = fid := by
    have := List.find?_some hget
    simpa using this
  subst hmfid
  rcases delete_removes_file_id s m hget huniq with ⟨hdel, hnone⟩
  have hcmd : cmd_fix s m.file_id m.owner_id (some newFid)
      = ({ memes := (s.memes.filter (fun x => x.id != m.id))
              ++ [{ id := some s.next_id, name := m.name, file_id := newFid,
                    owner_id := m.owner_id, times_used := 0 }],
           next_id := s.next_id + 1 },
         ["The meme has been fixed"]) := by
    unfold cmd_fix
    rw [hget]
    simp [hdel, add]
  refine ⟨_, hcmd, ?_, ?_⟩
  · unfold get_by_file_id
    rw [find_append_of_none _ _ _ hnone]
    have : (newFid == m.file_id) = false := by
      simp only [beq_eq_false_iff_ne, ne_eq]
      exact hnewOld
    simp [List.find?, this]
  · refine ⟨{ id := some s.next_id, name := m.name, file_id := newFid,
              owner_id := m.owner_id, times_used := 0 }, ?_, rfl, rfl, rfl, ?_⟩
    · unfold get_by_file_id
      unfold get_by_file_id at hnewFresh
      rw [find_append_of_none _ _ _ (find_filter_of_none _ _ _ hnewFresh)]
      simp [List.find?]
    · exact hnewOld

/-- C3 witness: user 1 fixes the meme "oof" stored under "AAA"; the platform
issues "BBB" for the re-upload. -/
theorem fix_replaces_record_witness :
    ∃ s', cmd_fix { memes := [{ id := some 0, name := "oof", file_id := "AAA",
                                owner_id := 1, times_used := 0 }],
                    next_id := 1 }
        "AAA" 1 (some "BBB")
        = (s', ["The meme has been fixed"])
      ∧ get_by_file_id s' "AAA" = none
      ∧ ∃ m', get_by_file_id s' "BBB" = some m'
          ∧ m'.name = "oof"
          ∧ m'.owner_id = 1
          ∧ m'.file_id = "BBB"
          ∧ m'.file_id ≠ "AAA" :=
  fix_replaces_record
    { memes := [{ id := some 0, name := "oof", file_id := "AAA",
                  owner_id := 1, times_used := 0 }], next_id := 1 }
    "AAA" "BBB"
    { id := some 0, name := "oof", file_id := "AAA",
      owner_id := 1, times_used := 0 }
    (by decide)
    (by
      intro m' hm' hfid
      simpa using hm')
    (by decide) (by decide)

/-- C9: during /fix the ownership-checked delete happens before the download,
conversion and re-upload; when one of those raises (env = none), the handler
terminates with the old record already removed and nothing added in its place:
the resulting store is exactly the post-delete store, the old file_id no
longer resolves, and no reply is sent. -/
theorem fix_loses_meme_on_error (s : SqliteMemeStorage) (fid : String)
    (m : Meme)
    (hget : get_by_file_id s fid = some m)
    (huniq : ∀ m' ∈ s.memes, m'.file_id = m.file_id → m' = m) :
    cmd_fix s fid m.owner_id none
      = ({ memes := s.memes.filter (fun x => x.id != m.id),
           next_id := s.next_id }, [])
    ∧ get_by_file_id { memes := s.memes.filter (fun x => x.id != m.id),
                       next_id := s.next_id } m.file_id = none := by
  have hmfid : m.file_id = fid := by
    have := List.find?_some hget
    simpa using this
  subst hmfid
  rcases delete_removes_file_id s m hget huniq with ⟨hdel, hnone⟩
  constructor
  · unfold cmd_fix
    rw [hget]
    simp [hdel]
  · unfold get_by_file_id
    exact hnone

/-- C9 witness: the download for fixing "oof" raises after the delete; the
meme is gone and nothing replaced it. -/
theorem fix_loses_meme_on_error_witness :
    cmd_fix { memes := [{ id := some 0, name := "oof", file_id := "AAA",
                          owner_id := 1, times_used := 0 }], next_id := 1 }
        "AAA" 1 none
      = ({ memes := [{ id := some 0, name := "oof", file_id := "AAA",
                       owner_id := 1, times_used := 0 }].filter
             (fun x => x.id != some 0), next_id := 1 }, [])
    ∧ get_by_file_id
        { memes := [{ id := some 0, name := "oof", file_id := "AAA",
                      owner_id := 1, times_used := 0 }].filter
            (fun x => x.id != some 0), next_id := 1 } "AAA" = none :=
  fix_loses_meme_on_error
    { memes := [{ id := some 0, name := "oof", file_id := "AAA",
                  owner_id := 1, times_used := 0 }], next_id := 1 }
    "AAA"
    { id := some 0, name := "oof", file_id := "AAA",
      owner_id := 1, times_used := 0 }
    (by decide)
    (by
      intro m' hm' hfid
      simpa using hm')

/-- A known voice message is answered by meme_handler with the stored name. -/
theorem handleOther_known_voice (env : Option String) (s : SqliteMemeStorage)
    (u : Nat) (fid : String) (m : Meme)
    (hget : get_by_file_id s fid = some m) :
    handleOther env s u (.voice fid) = (s, ["Name: \"" ++ m.name ++ "\""]) := by
  have hmeme : is_meme s (.voice fid) = true := by
    simp [is_meme, hget]
  unfold handleOther
  rw [hmeme]
  simp [hget]

/-- C6: a voice message whose file_id matches a stored meme never triggers the
add-conversation entry point, in the IDLE state as in the AWAITING_NAME state:
the dispatcher leaves the whole bot state (conversation, user_data and store)
exactly as it was and replies with the stored name of that meme. -/
theorem known_voice_replies_name (env : Option String) (st : BotState)
    (u : Nat) (fid : String) (m : Meme)
    (hget : get_by_file_id st.store fid = some m) :
    dispatch env st u (.voice fid) = (st, ["Name: \"" ++ m.name ++ "\""]) := by
  have hmeme : is_meme st.store (.voice fid) = true := by
    simp [is_meme, hget]
  have hho := handleOther_known_voice env st.store u fid m hget
  unfold dispatch
  by_cases hc : st.conv u = true
  · rw [if_pos hc]
    simp only [hho]
  · rw [if_neg hc]
    have : (isAudioLike (.voice fid) && !(is_meme st.store (.voice fid)))
        = false := by
      rw [hmeme]
      rfl
    rw [this]
    simp only [Bool.false_eq_true, if_false, hho]

/-- C6 witness: the lone stored meme "oof" is recognized and named, the state
untouched. -/
theorem known_voice_replies_name_witness :
    dispatch none
        (initState { memes := [{ id := some 0, name := "oof",
                                 file_id := "AAA", owner_id := 1,
                                 times_used := 0 }], next_id := 1 })
        2 (.voice "AAA")
      = (initState { memes := [{ id := some 0, name := "oof",
                                 file_id := "AAA", owner_id := 1,
                                 times_used := 0 }], next_id := 1 },
         ["Name: \"" ++ "oof" ++ "\""]) :=
  known_voice_replies_name none _ 2 "AAA"
    { id := some 0, name := "oof", file_id := "AAA",
      owner_id := 1, times_used := 0 }
    (by decide)

/-- C7 counterexample: user 1 uploads the unknown voice "AAA" (entering the
AWAITING_NAME state with the pending file_id stored in user_data) and then
issues /cancel. The conversation does return to IDLE, but the pending file_id
is NOT discarded: user_data still holds meme_file_id = "AAA" afterwards, since
cmd_cancel only ends the conversation and never touches user_data. -/
theorem cancel_keeps_pending_file_id :
    (dispatch none
       (dispatch none (initState { memes := [], next_id := 0 })
         1 (.voice "AAA")).1
       1 (.text "/cancel" none)).1.conv 1 = false
    ∧ (dispatch none
         (dispatch none (initState { memes := [], next_id := 0 })
           1 (.voice "AAA")).1
         1 (.text "/cancel" none)).1.userData 1 = some "AAA"
    ∧ ¬ (dispatch none
           (dispatch none (initState { memes := [], next_id := 0 })
             1 (.voice "AAA")).1
           1 (.text "/cancel" none)).1.userData 1 = none := by
  refine ⟨by decide, by decide, ?_⟩
  intro h
  have : (some "AAA" : Option String) = none := by
    rw [← h]
    decide
  exact Option.noConfusion this

/-- C7 (amended): an explicit /cancel command, issued while the add-meme
conversation is in the AWAITING_NAME state, returns the conversation state to
IDLE with the cancellation reply, but the pending file_id held in that user's
user_data is not discarded: user_data (and the store) are left exactly as
they were. -/
theorem cancel_returns_idle_keeps_user_data (env : Option String)
    (st : BotState) (u : Nat) (q : Option String)
    (hConv : st.conv u = true) :
    (dispatch env st u (.text "/cancel" q)).1.conv u = false
    ∧ (dispatch env st u (.text "/cancel" q)).1.userData = st.userData
    ∧ (dispatch env st u (.text "/cancel" q)).1.store = st.store
    ∧ (dispatch env st u (.text "/cancel" q)).2
        = ["Current operation has been canceled."] := by
  have hslash : (strStartsWith "/cancel" "/") = true := by decide
  have htok : (firstToken "/cancel" == "/cancel") = true := by decide
  unfold dispatch
  rw [if_pos hConv]
  simp only [hslash, Bool.not_true, Bool.false_eq_true, if_false, htok,
    if_true]
  refine ⟨by simp, by trivial, by trivial, by trivial⟩

/-- C7 (amended) witness: user 1, awaiting a name with pending file_id "AAA",
cancels; the conversation is IDLE again and user_data is untouched. -/
theorem cancel_returns_idle_witness :
    (dispatch none
       { store := { memes := [], next_id := 0 },
         conv := fun w => w == 1,
         userData := fun _ => some "AAA" }
       1 (.text "/cancel" none)).1.conv 1 = false
    ∧ (dispatch none
         { store := { memes := [], next_id := 0 },
           conv := fun w => w == 1,
           userData := fun _ => some "AAA" }
         1 (.text "/cancel" none)).1.userData
        = (fun _ => some "AAA")
    ∧ (dispatch none
         { store := { memes := [], next_id := 0 },
           conv := fun w => w == 1,
           userData := fun _ => some "AAA" }
         1 (.text "/cancel" none)).1.store
        = { memes := [], next_id := 0 }
    ∧ (dispatch none
         { store := { memes := [], next_id := 0 },
           conv := fun w => w == 1,
           userData := fun _ => some "AAA" }
         1 (.text "/cancel" none)).2
        = ["Current operation has been canceled."] :=
  cancel_returns_idle_keeps_user_data none
    { store := { memes := [], next_id := 0 },
      conv := fun w => w == 1,
      userData := fun _ => some "AAA" }
    1 none (by decide)

/-- C2: an inbound voice message whose file_id is not a known meme, from a
user with no active conversation, makes the router ask for a name and enter
the AWAITING_NAME state; the next plain text message from that user is
trimmed and becomes the meme's name: afterwards the store contains a record
with that name, the pending file_id, the sender as owner_id and times_used 0,
the add confirmation is sent, and the conversation is back to IDLE. -/
theorem conversation_flow_adds_meme (env env' : Option String) (st : BotState)
    (u : Nat) (fid t : String)
    (hIdle : st.conv u = false)
    (hUnknown : get_by_file_id st.store fid = none)
    (hPlain : strStartsWith t "/" = false) :
    (dispatch env st u (.voice fid)).2
        = ["Okay, now send me the name for the meme."]
    ∧ (dispatch env st u (.voice fid)).1.conv u = true
    ∧ (dispatch env' (dispatch env st u (.voice fid)).1 u (.text t none)).2
        = ["Meme has been added."]
    ∧ (dispatch env' (dispatch env st u (.voice fid)).1 u
        (.text t none)).1.conv u = false
    ∧ ∃ m' ∈ (dispatch env' (dispatch env st u (.voice fid)).1 u
          (.text t none)).1.store.memes,
        m'.name = strTrim t ∧ m'.file_id = fid ∧ m'.owner_id = u
        ∧ m'.times_used = 0 := by
  have hguard : (isAudioLike (.voice fid)
      && !(is_meme st.store (.voice fid))) = true := by
    simp [isAudioLike, is_meme, hUnknown]
  have h1 : dispatch env st u (.voice fid)
      = ({ st with
            userData := fun w => if w == u then some fid else st.userData w
            conv := fun w => if w == u then true else st.conv w },
         ["Okay, now send me the name for the meme."]) := by
    unfold dispatch
    simp only [hIdle, Bool.false_eq_true, if_false, hguard, if_true]
    rfl
  rw [h1]
  set st1 : BotState :=
    { st with
        userData := fun w => if w == u then some fid else st.userData w
        conv := fun w => if w == u then true else st.conv w } with hst1
  have h2pre : st1.conv u = true := by simp [hst1]
  have h2ud : st1.userData u = some fid := by simp [hst1]
  have hkey : dispatch env' st1 u (.text t none)
      = ({ st1 with
            store := { memes := st1.store.memes ++
                         [{ id := some st1.store.next_id, name := strTrim t,
                            file_id := fid, owner_id := u, times_used := 0 }],
                       next_id := st1.store.next_id + 1 }
            conv := fun w => if w == u then false else st1.conv w },
         ["Meme has been added."]) := by
    unfold dispatch
    rw [if_pos h2pre]
    simp only [hPlain, Bool.not_false, if_true, name_handler, h2ud,
      beq_self_eq_true, add]
  refine ⟨rfl, by simp [hst1], ?_, ?_, ?_⟩
  · rw [hkey]
  · rw [hkey]
    simp
  · rw [hkey]
    refine ⟨{ id := some st1.store.next_id, name := strTrim t,
              file_id := fid, owner_id := u, times_used := 0 },
            ?_, rfl, rfl, rfl, rfl⟩
    simp

/-- C2 witness: the unknown voice "AAA" from user 1 followed by the text
" party horn " adds the meme "party horn" owned by user 1. -/
theorem conversation_flow_adds_meme_witness :
    (dispatch none (initState { memes := [], next_id := 0 })
        1 (.voice "AAA")).2
        = ["Okay, now send me the name for the meme."]
    ∧ (dispatch none (initState { memes := [], next_id := 0 })
        1 (.voice "AAA")).1.conv 1 = true
    ∧ (dispatch none
        (dispatch none (initState { memes := [], next_id := 0 })
          1 (.voice "AAA")).1
        1 (.text " party horn " none)).2
        = ["Meme has been added."]
    ∧ (dispatch none
        (dispatch none (initState { memes := [], next_id := 0 })
          1 (.voice "AAA")).1
        1 (.text " party horn " none)).1.conv 1 = false
    ∧ ∃ m' ∈ (dispatch none
          (dispatch none (initState { memes := [], next_id := 0 })
            1 (.voice "AAA")).1
          1 (.text " party horn " none)).1.store.memes,
        m'.name = strTrim " party horn " ∧ m'.file_id = "AAA"
        ∧ m'.owner_id = 1 ∧ m'.times_used = 0 :=
  conversation_flow_adds_meme none none
    (initState { memes := [], next_id := 0 })
    1 "AAA" " party horn "
    (by decide) (by decide) (by decide)

/-- The conversation invariant: every user whose add-meme conversation is in
the AWAITING_NAME state has the meme_file_id key set in their user_data. -/
def ConvInv (st : BotState) : Prop :=
  ∀ u, st.conv u = true → (st.userData u).isSome = true

/-- name_handler never touches user_data. -/
theorem name_handler_userData (st : BotState) (sender : Nat)
    (content : String) :
    (name_handler st sender content).1.userData = st.userData := by
  unfold name_handler
  cases st.userData sender with
  | none => rfl
  | some fid =>
    cases add st.store { id := none, name := strTrim content, file_id := fid, owner_id := sender, times_used := 0 } with
    | none => rfl
    | some p =>
      cases p with
      | mk stored s' => rfl

/-- name_handler changes the conversation state of nobody but the sender. -/
theorem name_handler_conv_ne (st : BotState) (sender : Nat)
    (content : String) (v : Nat) (hvs : v ≠ sender) :
    (name_handler st sender content).1.conv v = st.conv v := by
  unfold name_handler
  cases st.userData sender with
  | none => rfl
  | some fid =>
    have hbeq : (v == sender) = false := by
      simp only [beq_eq_false_iff_ne, ne_eq]
      exact hvs
    show (if (v == sender) = true then false else st.conv v) = st.conv v
    rw [hbeq]
    simp

/-- One dispatcher step preserves the conversation invariant: audio_handler
writes user_data before entering AWAITING_NAME, the handlers that end or fall
outside the conversation never clear user_data, and no handler but
audio_handler puts a user into AWAITING_NAME. -/
theorem dispatch_preserves_ConvInv (env : Option String) (st : BotState)
    (sender : Nat) (msg : Msg) (h : ConvInv st) :
    ConvInv (dispatch env st sender msg).1 := by
  unfold dispatch
  by_cases hc : st.conv sender = true
  · rw [if_pos hc]
    cases msg with
    | text content quoted =>
      by_cases hp : strStartsWith content "/" = true
      · simp only [hp, Bool.not_true, Bool.false_eq_true, if_false]
        by_cases htok : (firstToken content == "/cancel") = true
        · rw [if_pos htok]
          intro v hv
          by_cases hvs : v = sender
          · subst hvs
            simp at hv
          · simp only [hvs] at hv
            have : (v == sender) = false := by
              simp only [beq_eq_false_iff_ne, ne_eq]
              exact hvs
            rw [this] at hv
            simp at hv
            exact h v hv
        · rw [if_neg htok]
          intro v hv
          exact h v hv
      · have hp' : strStartsWith content "/" = false := by
          simpa using hp
        simp only [hp', Bool.not_false, if_true]
        intro v hv
        rw [name_handler_userData]
        by_cases hvs : v = sender
        · subst hvs
          exact h v hc
        · rw [name_handler_conv_ne st sender content v hvs] at hv
          exact h v hv
    | voice fid =>
      intro v hv
      exact h v hv
    | audio fid =>
      intro v hv
      exact h v hv
  · rw [if_neg hc]
    by_cases hg : (isAudioLike msg && !(is_meme st.store msg)) = true
    · rw [if_pos hg]
      cases msg with
      | voice fid =>
        intro v hv
        by_cases hvs : v = sender
        · subst hvs
          simp [audio_handler]
        · have hbeq : (v == sender) = false := by
            simp only [beq_eq_false_iff_ne, ne_eq]
            exact hvs
          simp only [audio_handler, hbeq, Bool.false_eq_true, if_false] at hv ⊢
          exact h v hv
      | audio fid =>
        cases env with
        | none =>
          intro v hv
          exact h v hv
        | some newFid =>
          intro v hv
          by_cases hvs : v = sender
          · subst hvs
            simp [audio_handler]
          · have hbeq : (v == sender) = false := by
              simp only [beq_eq_false_iff_ne, ne_eq]
              exact hvs
            simp only [audio_handler, hbeq, Bool.false_eq_true, if_false]
              at hv ⊢
            exact h v hv
      | text content quoted =>
        intro v hv
        exact h v hv
    · rw [if_neg hg]
      intro v hv
      exact h v hv

/-- C10: in every reachable bot state, every user whose add-meme conversation
is in the AWAITING_NAME state has a pending meme_file_id stored in their
user_data, so name_handler's read of user_data never fails for any message
that reaches it. -/
theorem awaiting_name_has_pending_file_id (st : BotState) (u : Nat)
    (hR : Reachable st) (hu : st.conv u = true) :
    ∃ fid, st.userData u = some fid := by
  have hinv : ConvInv st := by
    clear hu u
    induction hR with
    | init s =>
      intro v hv
      simp [initState] at hv
    | next env sender msg hst ih =>
      exact dispatch_preserves_ConvInv env _ sender msg ih
  exact Option.isSome_iff_exists.mp (hinv u hu)

/-- C10 witness: after user 1 uploads the unknown voice "AAA" from the fresh
state, they are awaiting a name and a pending file_id exists. -/
theorem awaiting_name_has_pending_file_id_witness :
    ∃ fid, (dispatch none (initState { memes := [], next_id := 0 })
        1 (.voice "AAA")).1.userData 1 = some fid :=
  awaiting_name_has_pending_file_id _ 1
    (Reachable.next none 1 (.voice "AAA")
      (Reachable.init { memes := [], next_id := 0 }))
    (by decide)

end MemeBot
